import Mathlib

/-!
Verification of the telnet wave-animation server (`src/telnet_server.py`).

Text is modelled as `List Char`; each screen line is one such list, and a
rendered frame is the list of its lines.  Python string slicing maps to
`List.take` / `List.drop`; the in-place banner overlay loop maps to a fold of
`List.set` updates; the `lru_cache` decorator is modelled as an explicit
most-recently-used-first association list of capacity 200.  Python code that
can raise (`lines[-1]` on an empty list) is modelled with `Option`.
The session loop `shell` is modelled as a function of an environment giving,
per frame, the terminal size reported so far, whether the write/drain
succeeds, and the result of the one-byte timed read.
-/

namespace TelnetServer

/-- VT-100 command `END` (reset attributes), from the source. -/
def END : List Char := "\x1b[0m".toList

/-- VT-100 command `BOLD`. -/
def BOLD : List Char := "\x1b[1m".toList

/-- VT-100 command `RED`. -/
def RED : List Char := "\x1b[1;31m".toList

/-- VT-100 command `GREEN`. -/
def GREEN : List Char := "\x1b[22;32m".toList

/-- VT-100 command `YELLOW`. -/
def YELLOW : List Char := "\x1b[1;33m".toList

/-- VT-100 command `MAGENTA`. -/
def MAGENTA : List Char := "\x1b[1;35m".toList

/-- VT-100 command `WATER` (white on cyan background). -/
def WATER : List Char := ("\x1b[46m" ++ "\x1b[1;37m").toList

/-- VT-100 command `RESET` (move cursor to origin). -/
def RESET : List Char := "\x1b[0;0H".toList

/-- A wave row of the source is a 10-character motif repeated 20 times. -/
def waveRow (motif : String) : List Char := (List.replicate 20 motif.toList).flatten

/-- The `WAVE` background pattern: 10 rows of 200 characters. -/
def WAVE : List (List Char) := [
  waveRow "'^^'-.__.-",
  waveRow "^^'-.__.-'",
  waveRow "^'-.__.-'^",
  waveRow "'-.__.-'^^",
  waveRow "-.__.-'^^'",
  waveRow ".__.-'^^'-",
  waveRow "__.-'^^'-.",
  waveRow "_.-'^^'-._",
  waveRow ".-'^^'-.__",
  waveRow "-'^^'-.__."
]

/-- The `BANNER` block of the source: five rows, with style escapes baked in
and a `^color` placeholder on the subtitle row. -/
def BANNER : List (List Char) := [
  "                 ".toList,
  BOLD ++ "  M O Z Z . U S  ".toList ++ END,
  "  -------------  ".toList,
  "^color".toList ++ "  Ride the Wave  ".toList ++ END,
  "                 ".toList
]

/-- `BANNER_ROWS = len(BANNER)`. -/
def BANNER_ROWS : Nat := BANNER.length

/-- `BANNER_COLS = len(BANNER[0])` (the first banner row has no escapes). -/
def BANNER_COLS : Nat := (BANNER.getD 0 []).length

/-- The background lines of `render_screen`:
`[WAVE[(i + offset) % len(WAVE)][:cols] for i in range(rows)]`. -/
def bgLines (rows cols offset : Nat) : List (List Char) :=
  (List.range rows).map fun i => (WAVE.getD ((i + offset) % WAVE.length) []).take cols

/-- The spliced line of `overlay_banner`'s loop body:
`lines[row][:start] + END + BANNER[i] + WATER + lines[row][end:]` with
`end = start + BANNER_COLS`. -/
def spliceLine (start i : Nat) (l : List Char) : List Char :=
  l.take start ++ END ++ BANNER.getD i [] ++ WATER ++ l.drop (start + BANNER_COLS)

/-- One iteration of the overlay loop of `overlay_banner`:
`lines[row] = lines[row][:start] + END + line + WATER + lines[row][end:]`
where `row = start_row + i` and `line = BANNER[i]`. -/
def overlayStep (startRow start : Nat) (ls : List (List Char)) (i : Nat) :
    List (List Char) :=
  ls.set (startRow + i) (spliceLine start i (ls.getD (startRow + i) []))

/-- The loop `for i, line in enumerate(BANNER)` of `overlay_banner`, run for
the first `n` banner rows (the source runs it for all `BANNER_ROWS` rows). -/
def overlayFold (startRow start : Nat) (lines : List (List Char)) (n : Nat) :
    List (List Char) :=
  (List.range n).foldl (overlayStep startRow start) lines

/-- `overlay_banner(rows, cols, lines)` from the source: returns the lines
unchanged when `rows < BANNER_ROWS or cols < BANNER_COLS`, otherwise splices
each banner row into the centred window of the corresponding line. -/
def overlay_banner (rows cols : Nat) (lines : List (List Char)) :
    List (List Char) :=
  if rows < BANNER_ROWS ∨ cols < BANNER_COLS then lines
  else
    overlayFold ((rows - BANNER_ROWS) / 2) ((cols - BANNER_COLS) / 2) lines
      BANNER_ROWS

/-- The footer line of `render_screen`:
`lines[-1] = 'jgs' + lines[-1][3:-6] + '[q]uit'` (applied when the last line
has more than 9 characters). -/
def footerLine (last : List Char) : List Char :=
  "jgs".toList ++ (last.take (last.length - 6)).drop 3 ++ "[q]uit".toList

/-- The list of screen lines produced by `render_screen`, or `none` when the
Python code would raise: with `rows = 0` the list is empty and `lines[-1]`
raises `IndexError`. -/
def renderLines (rows cols offset : Nat) : Option (List (List Char)) :=
  let lines := overlay_banner rows cols (bgLines rows cols offset)
  match lines.getLast? with
  | none => none
  | some last =>
    some (if 9 < last.length then lines.set (lines.length - 1) (footerLine last)
          else lines)

/-- `render_screen(rows, cols, offset)`: the full frame text
`RESET + WATER + '\r\n'.join(lines) + END`, or `none` when the code raises. -/
def render_screen (rows cols offset : Nat) : Option (List Char) :=
  (renderLines rows cols offset).map fun ls =>
    RESET ++ WATER ++ List.intercalate ('\r' :: '\n' :: []) ls ++ END

/-- Kept constant `FPS = 10` of the source (overridable on the command line). -/
def FPS : Nat := 10

/-- Kept constant `DURATION = 10` of the source. -/
def DURATION : Nat := 10

/-- The subtitle palette of the source: `[MAGENTA, GREEN, RED, YELLOW]`. -/
def PALETTE : List (List Char) := [MAGENTA, GREEN, RED, YELLOW]

/-- `subtitle_color = [MAGENTA, GREEN, RED, YELLOW][(frame // 7) % 4]`. -/
def subtitle_color (frame : Nat) : List Char := PALETTE.getD ((frame / 7) % 4) []

/-- Python `text.replace(pat, sub, 1)`: replace the first occurrence of `pat`
(the source's pattern `^color` is nonempty, so the empty-pattern case of
Python's `replace` does not arise). -/
def replaceFirst (s pat sub : List Char) : List Char :=
  match s with
  | [] => []
  | c :: rest =>
    if pat.isPrefixOf s then sub ++ s.drop pat.length
    else c :: replaceFirst rest pat sub

/-- The text written for frame `frame` at geometry `(rows, cols)`: the cached
render with the `^color` placeholder substituted
(`text.replace('^color', subtitle_color, 1)`). -/
def frameText (rows cols frame : Nat) : Option (List Char) :=
  (render_screen rows cols (frame % WAVE.length)).map fun t =>
    replaceFirst t "^color".toList (subtitle_color frame)

/-- Result of the one-byte read `asyncio.wait_for(reader.read(1), 1/FPS)`:
either the timeout elapsed, a character arrived, or the stream reported
end-of-file (Python `reader.read(1)` then returns the empty string). -/
inductive ReadEvent where
  | timeout
  | recv (c : Char)
  | eofRead
  deriving DecidableEq, Repr

/-- Environment of one session: what the client/transport does at each frame
index.  `size f` is the terminal size `get_terminal_size` reports when frame
`f` starts (telnet NAWS may update it at any time); `writeOk f` is whether the
write and drain of frame `f` succeed; `read f` is the outcome of frame `f`'s
timed one-byte read. -/
structure Env where
  size : Nat → Nat × Nat
  writeOk : Nat → Bool
  read : Nat → ReadEvent

/-- How a session ends: the `for` loop exhausted its range and `writer.close()`
ran; the quit byte broke out of the loop at frame `f` (then `writer.close()`
ran); a write/drain failure raised out of `shell` at frame `f`; or
`render_screen` raised at frame `f` (only possible when `rows = 0`). -/
inductive Outcome where
  | completed
  | quit (f : Nat)
  | aborted (f : Nat)
  | crashed (f : Nat)
  deriving DecidableEq, Repr

/-- One attempted frame write: the frame index with the geometry and offset
passed to `render_screen`. -/
structure SentFrame where
  idx : Nat
  rows : Nat
  cols : Nat
  offset : Nat
  deriving DecidableEq, Repr

/-- The test `char == 'q'` of the source: true only when a byte arrived and it
is `'q'`.  A timeout skips the test (the `except` arm), and at end-of-file
Python's `reader.read(1)` returns `''`, which compares unequal to `'q'`. -/
def isQuit : ReadEvent → Bool
  | ReadEvent.recv c => decide (c = 'q')
  | _ => false

/-- The body of `shell`'s `for frame in range(total)` loop, by remaining
fuel: returns the frames whose write was attempted, and the outcome.  Each
iteration re-reads the terminal size, renders (a `none` render models the
`IndexError` raised inside `render_screen`), writes and drains (a failed
drain raises out of `shell`), then polls one byte: `'q'` breaks out of the
loop; any other byte, end-of-file or a timeout falls through to the next
frame. -/
def shellLoop (env : Env) : Nat → Nat → List SentFrame × Outcome
  | 0, _ => ([], Outcome.completed)
  | fuel + 1, f =>
    let rows := (env.size f).1
    let cols := (env.size f).2
    let offset := f % WAVE.length
    match frameText rows cols f with
    | none => ([], Outcome.crashed f)
    | some _ =>
      if env.writeOk f then
        if isQuit (env.read f) then ([⟨f, rows, cols, offset⟩], Outcome.quit f)
        else
          let r := shellLoop env fuel (f + 1)
          (⟨f, rows, cols, offset⟩ :: r.1, r.2)
      else ([⟨f, rows, cols, offset⟩], Outcome.aborted f)

/-- A whole session: `int(DURATION * FPS)` loop iterations starting at frame
0 (negotiation has already run; `env.size 0` is the geometry it left). -/
def shellRun (env : Env) (total : Nat) : List SentFrame × Outcome :=
  shellLoop env total 0

/-- Capacity of the frame cache (`lru_cache(maxsize=200)`). -/
def CACHE_MAXSIZE : Nat := 200

/-- The `lru_cache` state over `render_screen`: entries most-recently-used
first, each a key `(rows, cols, offset)` with its cached text. -/
structure FrameCache where
  entries : List ((Nat × Nat × Nat) × List Char)
  deriving DecidableEq, Repr

/-- One cached call of `render_screen` under `lru_cache(maxsize=200)`: on a
hit the entry moves to the front and the renderer is not invoked; on a miss
the renderer runs, a successful result is inserted at the front and the
least-recently-used entry is dropped past capacity, while an exception
(`rows = 0`) caches nothing.  Returns the text (or `none` for the raised
exception), the new cache, and whether the renderer was invoked. -/
def get_or_render (c : FrameCache) (k : Nat × Nat × Nat) :
    Option (List Char) × FrameCache × Bool :=
  match c.entries.find? (fun e => decide (e.1 = k)) with
  | some e =>
    (some e.2, ⟨(k, e.2) :: c.entries.eraseP (fun e => decide (e.1 = k))⟩, false)
  | none =>
    match render_screen k.1 k.2.1 k.2.2 with
    | none => (none, c, true)
    | some t => (some t, ⟨((k, t) :: c.entries).take CACHE_MAXSIZE⟩, true)

/-- A client that reports a 1×1 terminal, never types, never disconnects. -/
def envTimeout : Env := ⟨fun _ => (1, 1), fun _ => true, fun _ => ReadEvent.timeout⟩

/-- A client that presses `'q'` during frame 3's poll. -/
def envQuit3 : Env :=
  ⟨fun _ => (1, 1), fun _ => true,
    fun f => if f = 3 then ReadEvent.recv 'q' else ReadEvent.timeout⟩

/-- A client that reports a 1×1 terminal at negotiation and a 2×2 terminal
from frame 1 on (a mid-animation resize). -/
def envResize : Env :=
  ⟨fun f => if f = 0 then (1, 1) else (2, 2), fun _ => true,
    fun _ => ReadEvent.timeout⟩

/-- A client whose read side reports end-of-stream from the first frame on,
while writes still succeed (a half-closed connection). -/
def envEof : Env := ⟨fun _ => (1, 1), fun _ => true, fun _ => ReadEvent.eofRead⟩

/-- A connection whose writes fail from frame 2 on (peer fully closed). -/
def envWriteFail : Env :=
  ⟨fun _ => (1, 1), fun f => decide (f < 2), fun _ => ReadEvent.timeout⟩

/-! Helper lemmas (shared; none is a claim's theorem). -/

theorem bannerRows_eq : BANNER_ROWS = 5 := rfl

theorem bannerCols_eq : BANNER_COLS = 17 := rfl

theorem waveLength_eq : WAVE.length = 10 := rfl

theorem wave_row_length (j : Nat) (hj : j < 10) : (WAVE.getD j []).length = 200 := by
  interval_cases j <;> rfl

theorem bgLines_length (rows cols offset : Nat) :
    (bgLines rows cols offset).length = rows := by
  simp [bgLines]

theorem bgLines_getElem? (rows cols offset i : Nat) (h : i < rows) :
    (bgLines rows cols offset)[i]? =
      some ((WAVE.getD ((i + offset) % WAVE.length) []).take cols) := by
  simp [bgLines, List.getElem?_map, List.getElem?_range h]

theorem overlayFold_succ (s t : Nat) (lines : List (List Char)) (n : Nat) :
    overlayFold s t lines (n + 1) = overlayStep s t (overlayFold s t lines n) n := by
  simp [overlayFold, List.range_succ]

theorem overlayFold_length (s t : Nat) (lines : List (List Char)) (n : Nat) :
    (overlayFold s t lines n).length = lines.length := by
  induction n with
  | zero => rfl
  | succ n ih => rw [overlayFold_succ, overlayStep, List.length_set, ih]

theorem overlayFold_getElem? (s t : Nat) (lines : List (List Char)) (n : Nat)
    (hn : s + n ≤ lines.length) (r : Nat) :
    (overlayFold s t lines n)[r]? =
      if s ≤ r ∧ r < s + n then some (spliceLine t (r - s) (lines.getD r []))
      else lines[r]? := by
  induction n with
  | zero =>
    rw [overlayFold]
    simp only [List.range_zero, List.foldl_nil]
    rw [if_neg (by omega)]
  | succ n ih =>
    have hn' : s + n ≤ lines.length := by omega
    rw [overlayFold_succ, overlayStep]
    by_cases hr : s + n = r
    · subst hr
      have hlt : s + n < (overlayFold s t lines n).length := by
        rw [overlayFold_length]; omega
      rw [List.getElem?_set_self hlt]
      have hget : (overlayFold s t lines n).getD (s + n) [] = lines.getD (s + n) [] := by
        rw [List.getD_eq_getElem?_getD, ih hn', if_neg (by omega),
          ← List.getD_eq_getElem?_getD]
      rw [hget, if_pos (by omega), Nat.add_sub_cancel_left]
    · rw [List.getElem?_set_ne hr, ih hn']
      by_cases hin : s ≤ r ∧ r < s + n
      · rw [if_pos hin, if_pos (by omega)]
      · rw [if_neg hin, if_neg (by omega)]

theorem overlay_banner_length (rows cols : Nat) (lines : List (List Char)) :
    (overlay_banner rows cols lines).length = lines.length := by
  rw [overlay_banner]
  split
  · rfl
  · rw [overlayFold_length]

theorem overlay_startRow_add_le {rows : Nat} (hr : BANNER_ROWS ≤ rows) :
    (rows - BANNER_ROWS) / 2 + BANNER_ROWS ≤ rows := by
  have h := Nat.div_le_self (rows - BANNER_ROWS) 2
  omega

theorem overlay_banner_getElem? (rows cols : Nat) (lines : List (List Char))
    (hr : BANNER_ROWS ≤ rows) (hc : BANNER_COLS ≤ cols) (hlen : lines.length = rows)
    (r : Nat) :
    (overlay_banner rows cols lines)[r]? =
      if (rows - BANNER_ROWS) / 2 ≤ r ∧ r < (rows - BANNER_ROWS) / 2 + BANNER_ROWS
      then some (spliceLine ((cols - BANNER_COLS) / 2) (r - (rows - BANNER_ROWS) / 2)
        (lines.getD r []))
      else lines[r]? := by
  rw [overlay_banner, if_neg (by omega)]
  exact overlayFold_getElem? _ _ lines BANNER_ROWS
    (by rw [hlen]; exact overlay_startRow_add_le hr) r

theorem render_screen_isSome (rows cols offset : Nat) (h : 1 ≤ rows) :
    (render_screen rows cols offset).isSome = true := by
  rw [render_screen, renderLines]
  have hne : overlay_banner rows cols (bgLines rows cols offset) ≠ [] := by
    intro hnil
    have := overlay_banner_length rows cols (bgLines rows cols offset)
    rw [hnil, bgLines_length] at this
    simp at this
    omega
  obtain ⟨last, hlast⟩ := Option.isSome_iff_exists.mp (List.getLast?_isSome.mpr hne)
  simp only [hlast]
  simp

theorem frameText_isSome (rows cols f : Nat) (h : 1 ≤ rows) :
    ∃ t, frameText rows cols f = some t := by
  rw [frameText]
  obtain ⟨t, ht⟩ :=
    Option.isSome_iff_exists.mp (render_screen_isSome rows cols (f % WAVE.length) h)
  exact ⟨_, by rw [ht]; rfl⟩

/-- C2 (counterexample): at `rows = 5, cols = 17` the terminal is smaller than
the banner bounds plus the claimed 2-cell margin on each axis, yet
`overlay_banner` does draw the banner: the overlaid lines differ from the
background. -/
theorem banner_drawn_within_margin :
    5 < BANNER_ROWS + 4 ∧ 17 < BANNER_COLS + 4 ∧
      overlay_banner 5 17 (bgLines 5 17 0) ≠ bgLines 5 17 0 := by decide

/-- C2 (amended): the banner is omitted entirely exactly when the terminal is
smaller than the banner bounds themselves (no extra margin): for
`rows < BANNER_ROWS` or `cols < BANNER_COLS` the lines are returned unchanged,
and otherwise every banner row is spliced in whole (never partially). -/
theorem banner_omitted_iff_smaller_than_bounds (rows cols : Nat)
    (lines : List (List Char)) (hlen : lines.length = rows) :
    (rows < BANNER_ROWS ∨ cols < BANNER_COLS → overlay_banner rows cols lines = lines)
    ∧ (BANNER_ROWS ≤ rows → BANNER_COLS ≤ cols → ∀ i, i < BANNER_ROWS →
      (overlay_banner rows cols lines)[(rows - BANNER_ROWS) / 2 + i]? =
        some (spliceLine ((cols - BANNER_COLS) / 2) i
          (lines.getD ((rows - BANNER_ROWS) / 2 + i) []))) := by
  constructor
  · intro h; rw [overlay_banner, if_pos h]
  · intro hr hc i hi
    rw [overlay_banner_getElem? rows cols lines hr hc hlen, if_pos (by omega),
      Nat.add_sub_cancel_left]

/-- C2 (witness): a 4-row terminal, below the banner bounds, gets the
background back untouched. -/
theorem banner_omitted_witness :
    overlay_banner 4 30 (bgLines 4 30 0) = bgLines 4 30 0 :=
  (banner_omitted_iff_smaller_than_bounds 4 30 (bgLines 4 30 0)
    (bgLines_length 4 30 0)).1 (Or.inl (by decide))

/-- C3 (counterexample): at `rows = 0` rendering raises (`lines[-1]` on the
empty line list throws `IndexError`), modelled as `none` — so rendering is not
error-free for every reportable geometry. -/
theorem render_screen_raises_at_zero_rows : render_screen 0 80 0 = none := rfl

/-- C3 (amended): for every geometry with `rows ≥ 1` — including `cols = 0`
and sizes below the banner bounds — rendering a frame never raises: it
returns a frame, and too-small geometry is handled only by omitting the
banner overlay. -/
theorem render_never_fails_for_positive_rows (rows cols offset : Nat)
    (h : 1 ≤ rows) :
    (render_screen rows cols offset).isSome = true
    ∧ (rows < BANNER_ROWS ∨ cols < BANNER_COLS →
      overlay_banner rows cols (bgLines rows cols offset) =
        bgLines rows cols offset) := by
  refine ⟨render_screen_isSome rows cols offset h, fun hsmall => ?_⟩
  rw [overlay_banner, if_pos hsmall]

/-- C3 (witness): the spec's own scenario, a 5×5 terminal: the frame renders
and contains only wave background (no banner overlay). -/
theorem render_never_fails_witness :
    (render_screen 5 5 0).isSome = true ∧
      overlay_banner 5 5 (bgLines 5 5 0) = bgLines 5 5 0 :=
  ⟨(render_never_fails_for_positive_rows 5 5 0 (by decide)).1,
    (render_never_fails_for_positive_rows 5 5 0 (by decide)).2 (Or.inr (by decide))⟩

/-- C7: for `rows ≥ BANNER_ROWS` and `cols ≥ BANNER_COLS` and every offset,
the overlaid frame holds each banner row `i` spliced into background line
`startRow + i` over the window starting at `startCol = (cols - BANNER_COLS)/2`
with `startRow = (rows - BANNER_ROWS)/2`, the background around the splice
kept (up to the `END`/`WATER` colour wrappers the source inserts), and every
line outside the banner block is preserved unchanged. -/
theorem banner_overlay_centered (rows cols offset : Nat)
    (hr : BANNER_ROWS ≤ rows) (hc : BANNER_COLS ≤ cols) :
    (∀ i, i < BANNER_ROWS →
      (overlay_banner rows cols (bgLines rows cols offset))[(rows - BANNER_ROWS) / 2 + i]? =
        some (((bgLines rows cols offset).getD ((rows - BANNER_ROWS) / 2 + i) []).take
            ((cols - BANNER_COLS) / 2) ++ END ++ BANNER.getD i [] ++ WATER ++
          ((bgLines rows cols offset).getD ((rows - BANNER_ROWS) / 2 + i) []).drop
            ((cols - BANNER_COLS) / 2 + BANNER_COLS)))
    ∧ ∀ r, r < (rows - BANNER_ROWS) / 2 ∨ (rows - BANNER_ROWS) / 2 + BANNER_ROWS ≤ r →
      (overlay_banner rows cols (bgLines rows cols offset))[r]? =
        (bgLines rows cols offset)[r]? := by
  constructor
  · intro i hi
    rw [overlay_banner_getElem? rows cols _ hr hc (bgLines_length rows cols offset),
      if_pos (by omega), Nat.add_sub_cancel_left]
    rfl
  · intro r hrr
    rw [overlay_banner_getElem? rows cols _ hr hc (bgLines_length rows cols offset),
      if_neg (by omega)]

/-- C7 (witness): the second banner row lands spliced into line 1 of a 5×17
frame. -/
theorem banner_overlay_centered_witness :
    (overlay_banner 5 17 (bgLines 5 17 0))[(5 - BANNER_ROWS) / 2 + 1]? =
      some (((bgLines 5 17 0).getD ((5 - BANNER_ROWS) / 2 + 1) []).take
          ((17 - BANNER_COLS) / 2) ++ END ++ BANNER.getD 1 [] ++ WATER ++
        ((bgLines 5 17 0).getD ((5 - BANNER_ROWS) / 2 + 1) []).drop
          ((17 - BANNER_COLS) / 2 + BANNER_COLS)) :=
  (banner_overlay_centered 5 17 0 (by decide) (by decide)).1 1 (by decide)

set_option maxRecDepth 4000 in
/-- C8 (counterexample): at `cols = 201` a background line has only 200
characters (the wave rows are 200 characters wide and are truncated, never
tiled), so a line is not "exactly cols characters for every value of cols". -/
theorem bg_line_shorter_than_cols :
    ((bgLines 1 201 0).getD 0 []).length = 200 ∧ (200 : Nat) ≠ 201 := by decide

/-- C8 (amended): for every `rows ≥ 1`, `cols` and `offset`, the frame has
exactly `rows` lines, and background line `i` is the wave row at index
`(i + offset) mod patternLength` truncated to `cols` characters — hence
exactly `min cols 200` characters wide, which is exactly `cols` whenever
`cols ≤ 200`. -/
theorem render_row_count_and_bg_width (rows cols offset : Nat) (h : 1 ≤ rows) :
    (∃ ls, renderLines rows cols offset = some ls ∧ ls.length = rows)
    ∧ ∀ i, i < rows →
      (bgLines rows cols offset)[i]? =
        some ((WAVE.getD ((i + offset) % WAVE.length) []).take cols)
      ∧ ((bgLines rows cols offset).getD i []).length = min cols 200 := by
  constructor
  · rw [renderLines]
    have hlen : (overlay_banner rows cols (bgLines rows cols offset)).length = rows := by
      rw [overlay_banner_length, bgLines_length]
    have hne : overlay_banner rows cols (bgLines rows cols offset) ≠ [] := by
      intro hnil; rw [hnil] at hlen; simp at hlen; omega
    obtain ⟨last, hlast⟩ := Option.isSome_iff_exists.mp (List.getLast?_isSome.mpr hne)
    simp only [hlast]
    refine ⟨_, rfl, ?_⟩
    split
    · rw [List.length_set, hlen]
    · exact hlen
  · intro i hi
    refine ⟨bgLines_getElem? rows cols offset i hi, ?_⟩
    rw [List.getD_eq_getElem?_getD, bgLines_getElem? rows cols offset i hi]
    simp only [Option.getD_some]
    rw [List.length_take,
      wave_row_length _ (by rw [waveLength_eq]; exact Nat.mod_lt _ (by omega))]

/-- C8 (witness): a 1×1 frame has one line whose background is the first wave
character. -/
theorem render_row_count_witness :
    (bgLines 1 1 0)[0]? = some ((WAVE.getD ((0 + 0) % WAVE.length) []).take 1)
    ∧ ((bgLines 1 1 0).getD 0 []).length = min 1 200 :=
  (render_row_count_and_bg_width 1 1 0 (by decide)).2 0 (by decide)

/-- C9: the subtitle colour at frame `7*f + j` (for `j < 7`, i.e. throughout
the `f`-th 7-frame block) is `PALETTE[f % 4]`; the cycle repeats every
28 frames, so frames 0 and 28 select the same colour; and the frame text is
the cached render with exactly that colour substituted for the `^color`
placeholder. -/
theorem subtitle_color_cycles (f j : Nat) (hj : j < 7) :
    subtitle_color (7 * f + j) = PALETTE.getD (f % 4) []
    ∧ subtitle_color (f + 28) = subtitle_color f
    ∧ ∀ rows cols, frameText rows cols (7 * f + j) =
        (render_screen rows cols ((7 * f + j) % WAVE.length)).map
          fun t => replaceFirst t "^color".toList (PALETTE.getD (f % 4) []) := by
  have h1 : (7 * f + j) / 7 = f := by omega
  have h2 : (f + 28) / 7 % 4 = f / 7 % 4 := by omega
  refine ⟨?_, ?_, ?_⟩
  · rw [subtitle_color, h1]
  · rw [subtitle_color, subtitle_color, h2]
  · intro rows cols
    rw [frameText, subtitle_color, h1]

/-- C9 (witness): frame 0 uses `PALETTE[0]` (magenta) and frame 28 repeats
frame 0's colour. -/
theorem subtitle_color_cycles_witness :
    subtitle_color 0 = PALETTE.getD 0 [] ∧ subtitle_color 28 = subtitle_color 0 :=
  ⟨(subtitle_color_cycles 0 0 (by decide)).1,
    (subtitle_color_cycles 0 0 (by decide)).2.1⟩

/-! Session-loop helper lemmas. -/

theorem isQuit_false {e : ReadEvent} (h : e ≠ ReadEvent.recv 'q') :
    isQuit e = false := by
  cases e with
  | recv c =>
    refine decide_eq_false fun hc => ?_
    exact h (by rw [hc])
  | timeout => rfl
  | eofRead => rfl

theorem shellLoop_step_cont (env : Env) (fuel f : Nat)
    (hs : 1 ≤ (env.size f).1) (hw : env.writeOk f = true)
    (hq : env.read f ≠ ReadEvent.recv 'q') :
    shellLoop env (fuel + 1) f =
      (⟨f, (env.size f).1, (env.size f).2, f % WAVE.length⟩ ::
          (shellLoop env fuel (f + 1)).1,
        (shellLoop env fuel (f + 1)).2) := by
  obtain ⟨t, ht⟩ := frameText_isSome (env.size f).1 (env.size f).2 f hs
  simp only [shellLoop, ht, hw, isQuit_false hq, if_true, if_false, Bool.false_eq_true]

theorem shellLoop_step_quit (env : Env) (fuel f : Nat)
    (hs : 1 ≤ (env.size f).1) (hw : env.writeOk f = true)
    (hr : env.read f = ReadEvent.recv 'q') :
    shellLoop env (fuel + 1) f =
      ([⟨f, (env.size f).1, (env.size f).2, f % WAVE.length⟩], Outcome.quit f) := by
  obtain ⟨t, ht⟩ := frameText_isSome (env.size f).1 (env.size f).2 f hs
  have hq : isQuit (env.read f) = true := by rw [hr]; rfl
  simp only [shellLoop, ht, hw, hq, if_true]

theorem shellLoop_step_abort (env : Env) (fuel f : Nat)
    (hs : 1 ≤ (env.size f).1) (hw : env.writeOk f = false) :
    shellLoop env (fuel + 1) f =
      ([⟨f, (env.size f).1, (env.size f).2, f % WAVE.length⟩], Outcome.aborted f) := by
  obtain ⟨t, ht⟩ := frameText_isSome (env.size f).1 (env.size f).2 f hs
  simp only [shellLoop, ht, hw, Bool.false_eq_true, if_false]

theorem shellLoop_all_continue (env : Env) :
    ∀ fuel f,
      (∀ g, f ≤ g → g < f + fuel →
        env.read g ≠ ReadEvent.recv 'q' ∧ env.writeOk g = true ∧ 1 ≤ (env.size g).1) →
      (shellLoop env fuel f).1.map SentFrame.idx = List.range' f fuel
      ∧ (shellLoop env fuel f).2 = Outcome.completed := by
  intro fuel
  induction fuel with
  | zero => exact fun f _ => ⟨rfl, rfl⟩
  | succ fuel ih =>
    intro f h
    obtain ⟨hq, hw, hs⟩ := h f (Nat.le_refl f) (by omega)
    have hrest := ih (f + 1) fun g hg1 hg2 => h g (by omega) (by omega)
    rw [shellLoop_step_cont env fuel f hs hw hq]
    simp only [List.map_cons, List.range'_succ]
    exact ⟨by rw [hrest.1], hrest.2⟩

theorem shellLoop_until (env : Env) (k : Nat) (out : Outcome)
    (hterm : ∀ fuel, shellLoop env (fuel + 1) k =
      ([⟨k, (env.size k).1, (env.size k).2, k % WAVE.length⟩], out)) :
    ∀ fuel f, f ≤ k → k < f + fuel →
      (∀ g, f ≤ g → g < k →
        env.read g ≠ ReadEvent.recv 'q' ∧ env.writeOk g = true ∧ 1 ≤ (env.size g).1) →
      (shellLoop env fuel f).1.map SentFrame.idx = List.range' f (k + 1 - f)
      ∧ (shellLoop env fuel f).2 = out := by
  intro fuel
  induction fuel with
  | zero => intro f h1 h2 _; omega
  | succ fuel ih =>
    intro f h1 h2 h
    by_cases hf : f = k
    · rw [hf, hterm fuel, show k + 1 - k = 1 by omega]
      exact ⟨rfl, rfl⟩
    · obtain ⟨hq, hw, hs⟩ := h f (Nat.le_refl f) (by omega)
      have hrest := ih (f + 1) (by omega) (by omega)
        fun g hg1 hg2 => h g (by omega) hg2
      rw [shellLoop_step_cont env fuel f hs hw hq]
      have hsplit : k + 1 - f = (k + 1 - (f + 1)) + 1 := by omega
      rw [hsplit]
      simp only [List.map_cons, List.range'_succ]
      exact ⟨by rw [hrest.1], hrest.2⟩

theorem shellLoop_geometry (env : Env) :
    ∀ fuel f fr, fr ∈ (shellLoop env fuel f).1 →
      (fr.rows, fr.cols) = env.size fr.idx := by
  intro fuel
  induction fuel with
  | zero => intro f fr hmem; exact absurd hmem (List.not_mem_nil fr)
  | succ fuel ih =>
    intro f fr hmem
    rcases hft : frameText (env.size f).1 (env.size f).2 f with _ | t
    · rw [shellLoop] at hmem
      simp only [hft] at hmem
      exact absurd hmem (List.not_mem_nil fr)
    · by_cases hw : env.writeOk f = true
      · by_cases hqq : isQuit (env.read f) = true
        · rw [shellLoop] at hmem
          simp only [hft, hw, hqq, if_true] at hmem
          rcases List.mem_singleton.mp hmem with rfl
          rfl
        · rw [shellLoop] at hmem
          simp only [hft, hw, hqq, if_true, Bool.false_eq_true, if_false] at hmem
          rcases List.mem_cons.mp hmem with rfl | htail
          · rfl
          · exact ih (f + 1) fr htail
      · rw [shellLoop] at hmem
        simp only [hft, hw, Bool.false_eq_true, if_false] at hmem
        rcases List.mem_singleton.mp hmem with rfl
        rfl

/-- C1 (counterexample): a client that reports 1×1 at negotiation and 2×2
from frame 1 on gets frame 1 rendered at 2×2, not at the negotiation-time
pair — geometry is not fixed once negotiation completes. -/
theorem resize_changes_render_geometry :
    envResize.size 0 = (1, 1)
    ∧ (shellRun envResize 2).1.map (fun fr => (fr.rows, fr.cols)) = [(1, 1), (2, 2)]
    ∧ ((2, 2) : Nat × Nat) ≠ (1, 1) := by decide

/-- C1 (amended): the loop re-reads the terminal size every frame: the
`(rows, cols)` passed to the frame renderer at frame `f` is the size the
client has reported as of frame `f`, so it equals the negotiation-time pair
only while the client reports no new size. -/
theorem geometry_reread_each_frame (env : Env) (total : Nat) (fr : SentFrame)
    (hmem : fr ∈ (shellRun env total).1) :
    (fr.rows, fr.cols) = env.size fr.idx :=
  shellLoop_geometry env total 0 fr hmem

/-- C1 (witness): frame 0 of a 1-frame session against `envTimeout` is
rendered at the size reported at frame 0. -/
theorem geometry_reread_witness :
    (((⟨0, 1, 1, 0⟩ : SentFrame)).rows, ((⟨0, 1, 1, 0⟩ : SentFrame)).cols) =
      envTimeout.size ((⟨0, 1, 1, 0⟩ : SentFrame)).idx :=
  geometry_reread_each_frame envTimeout 1 ⟨0, 1, 1, 0⟩ (by decide)

/-- C4: if no quit byte arrives during the session and every write succeeds
(the connection stays open), the loop attempts exactly
`duration × fps` frame writes — frames `0 .. duration*fps - 1` in order —
and then leaves the loop normally (`writer.close()` runs). -/
theorem shell_sends_all_frames (env : Env) (duration fps : Nat)
    (hq : ∀ f, f < duration * fps → env.read f ≠ ReadEvent.recv 'q')
    (hw : ∀ f, f < duration * fps → env.writeOk f = true)
    (hs : ∀ f, f < duration * fps → 1 ≤ (env.size f).1) :
    (shellRun env (duration * fps)).1.length = duration * fps
    ∧ (shellRun env (duration * fps)).1.map SentFrame.idx =
        List.range (duration * fps)
    ∧ (shellRun env (duration * fps)).2 = Outcome.completed := by
  have h := shellLoop_all_continue env (duration * fps) 0
    fun g hg1 hg2 => ⟨hq g (by omega), hw g (by omega), hs g (by omega)⟩
  refine ⟨?_, ?_, h.2⟩
  · have := congrArg List.length h.1
    rw [List.length_map, List.length_range'] at this
    exact this
  · rw [List.range_eq_range']
    exact h.1

/-- C4 (witness): the spec's scenario `duration = 1s, fps = 10`: a silent
client receives exactly 10 frames and the session then completes. -/
theorem shell_sends_all_frames_witness :
    (shellRun envTimeout (1 * 10)).1.length = 1 * 10
    ∧ (shellRun envTimeout (1 * 10)).1.map SentFrame.idx = List.range (1 * 10)
    ∧ (shellRun envTimeout (1 * 10)).2 = Outcome.completed :=
  shell_sends_all_frames envTimeout 1 10 (by decide) (by decide) (by decide)

/-- C5: polls that time out advance the animation, and a `'q'` byte received
during frame `k`'s poll ends the session immediately after that frame: the
writes attempted are exactly frames `0 .. k` in order, and the outcome is the
quit transition at `k` — nothing further is written. -/
theorem quit_byte_ends_session (env : Env) (total k : Nat) (hk : k < total)
    (hq : env.read k = ReadEvent.recv 'q')
    (hbefore : ∀ f, f < k → env.read f ≠ ReadEvent.recv 'q')
    (hwrite : ∀ f, f ≤ k → env.writeOk f = true)
    (hsize : ∀ f, f ≤ k → 1 ≤ (env.size f).1) :
    (shellRun env total).1.map SentFrame.idx = List.range (k + 1)
    ∧ (shellRun env total).2 = Outcome.quit k := by
  have hterm : ∀ fuel, shellLoop env (fuel + 1) k =
      ([⟨k, (env.size k).1, (env.size k).2, k % WAVE.length⟩], Outcome.quit k) :=
    fun fuel => shellLoop_step_quit env fuel k (hsize k (Nat.le_refl k))
      (hwrite k (Nat.le_refl k)) hq
  have h := shellLoop_until env k (Outcome.quit k) hterm total 0 (by omega) (by omega)
    fun g hg1 hg2 => ⟨hbefore g hg2, hwrite g (by omega), hsize g (by omega)⟩
  rw [List.range_eq_range']
  rw [Nat.sub_zero] at h
  exact h

/-- C5 (witness): the spec's scenario — `'q'` during frame 3 of 10: frames
0..3 are sent, then the session quits, sending no further frames. -/
theorem quit_byte_ends_session_witness :
    (shellRun envQuit3 10).1.map SentFrame.idx = List.range 4
    ∧ (shellRun envQuit3 10).2 = Outcome.quit 3 :=
  quit_byte_ends_session envQuit3 10 3 (by decide) (by decide) (by decide)
    (by decide) (by decide)

/-- C6 (counterexample): a peer that half-closes the connection so that every
read reports end-of-stream from frame 0, while writes still succeed, does NOT
terminate the session: all 10 frames are still written and the loop completes
normally — the empty read is treated like a non-quit byte. -/
theorem eof_read_does_not_end_session :
    envEof.read 0 = ReadEvent.eofRead
    ∧ (shellRun envEof 10).1.length = 10
    ∧ (shellRun envEof 10).2 = Outcome.completed := by decide

/-- C6 (amended): only a write/drain failure terminates the session
immediately: if the write of frame `k` fails (and the session was alive until
then), the writes attempted are exactly frames `0 .. k`, the loop unwinds at
`k`, and no further write is attempted; a read that merely reports
end-of-stream does not end the session. -/
theorem write_failure_ends_session (env : Env) (total k : Nat) (hk : k < total)
    (hwk : env.writeOk k = false)
    (hbefore : ∀ f, f < k → env.writeOk f = true ∧ env.read f ≠ ReadEvent.recv 'q')
    (hsize : ∀ f, f ≤ k → 1 ≤ (env.size f).1) :
    (shellRun env total).1.map SentFrame.idx = List.range (k + 1)
    ∧ (shellRun env total).2 = Outcome.aborted k := by
  have hterm : ∀ fuel, shellLoop env (fuel + 1) k =
      ([⟨k, (env.size k).1, (env.size k).2, k % WAVE.length⟩], Outcome.aborted k) :=
    fun fuel => shellLoop_step_abort env fuel k (hsize k (Nat.le_refl k)) hwk
  have h := shellLoop_until env k (Outcome.aborted k) hterm total 0 (by omega)
    (by omega)
    fun g hg1 hg2 => ⟨(hbefore g hg2).2, (hbefore g hg2).1, hsize g (by omega)⟩
  rw [List.range_eq_range']
  rw [Nat.sub_zero] at h
  exact h

/-- C6 (witness): writes fail from frame 2 on: frames 0..2 are attempted,
the session aborts at frame 2, nothing later is written. -/
theorem write_failure_ends_session_witness :
    (shellRun envWriteFail 10).1.map SentFrame.idx = List.range 3
    ∧ (shellRun envWriteFail 10).2 = Outcome.aborted 2 :=
  write_failure_ends_session envWriteFail 10 2 (by decide) (by decide) (by decide)
    (by decide)

/-- C10: under the cache invariant (every cached entry is its key's render)
and for a renderable key (`rows ≥ 1`), `get_or_render` returns exactly what
the pure renderer returns; calling it again with the identical key returns
the identical text and does not invoke the renderer (the second call is a
cache hit). -/
theorem get_or_render_memoizes (c : FrameCache) (k : Nat × Nat × Nat)
    (hinv : ∀ e ∈ c.entries, render_screen e.1.1 e.1.2.1 e.1.2.2 = some e.2)
    (hk : 1 ≤ k.1) :
    (get_or_render c k).1 = render_screen k.1 k.2.1 k.2.2
    ∧ (get_or_render (get_or_render c k).2.1 k).1 = (get_or_render c k).1
    ∧ (get_or_render (get_or_render c k).2.1 k).2.2 = false := by
  have hit : ∀ (v : List Char) (rest : List ((Nat × Nat × Nat) × List Char)),
      get_or_render (⟨(k, v) :: rest⟩ : FrameCache) k =
        (some v, ⟨(k, v) :: ((k, v) :: rest).eraseP (fun e => decide (e.1 = k))⟩,
          false) := by
    intro v rest
    have hfind : List.find? (fun e => decide (e.1 = k)) ((k, v) :: rest) =
        some (k, v) := by simp
    simp only [get_or_render]
    rw [hfind]
  rcases hf : c.entries.find? (fun e => decide (e.1 = k)) with _ | e
  · obtain ⟨t, ht⟩ :=
      Option.isSome_iff_exists.mp (render_screen_isSome k.1 k.2.1 k.2.2 hk)
    have h1 : get_or_render c k =
        (some t, ⟨(k, t) :: c.entries.take 199⟩, true) := by
      simp only [get_or_render]
      rw [hf, ht]
      rfl
    rw [h1, hit t (c.entries.take 199), ht]
    exact ⟨rfl, rfl, rfl⟩
  · have hp := List.find?_some hf
    simp only [decide_eq_true_eq] at hp
    have hren := hinv e (List.mem_of_find?_eq_some hf)
    rw [hp] at hren
    have h1 : get_or_render c k = (some e.2,
        ⟨(k, e.2) :: c.entries.eraseP (fun e => decide (e.1 = k))⟩, false) := by
      simp only [get_or_render]
      rw [hf]
    rw [h1, hit e.2 (c.entries.eraseP (fun e => decide (e.1 = k))), hren]
    exact ⟨rfl, rfl, rfl⟩

/-- C10 (witness): from an empty cache at key `(1, 1, 0)`: the first call
returns the pure render, the second call returns the same text without
invoking the renderer. -/
theorem get_or_render_memoizes_witness :
    (get_or_render ⟨[]⟩ (1, 1, 0)).1 = render_screen 1 1 0
    ∧ (get_or_render (get_or_render ⟨[]⟩ (1, 1, 0)).2.1 (1, 1, 0)).1 =
        (get_or_render ⟨[]⟩ (1, 1, 0)).1
    ∧ (get_or_render (get_or_render ⟨[]⟩ (1, 1, 0)).2.1 (1, 1, 0)).2.2 = false :=
  get_or_render_memoizes ⟨[]⟩ (1, 1, 0) (by simp) (by decide)

end TelnetServer
